import Mathlib

/-!
Verification development for the `screenshot` Go library (mwat56/screenshot).

This file gives a shallow embedding of the pure core of `screenshot.go`:
the URL sanitiser, the filename-extension extractor, the host-list matcher
and its reload step, the cache-existence check, the image normalizer's
decode/re-encode pipeline, the crop/scale policy, the `CreateImage`
control flow, and the `Options` copy.  External collaborators (filesystem,
HTTP, the Chrome rendering backend, and the png/jpeg codecs) are passed in
as explicit parameters, exactly where the Go code calls out to them.
Machine integers are modelled as `Int` (Go `int`/`int64` arithmetic in the
embedded code never overflows in the ranges the claims exercise).
-/

/-- Word characters of Go's regexp class `\w`: ASCII letters, digits, `_`. -/
def isWordChar (c : Char) : Bool :=
  c.isAlpha || c.isDigit || c == '_'

/-- Embedding of Go `strings.ToLower` (ASCII range; the embedded code only
compares hostnames and filename extensions, which are ASCII). -/
def goToLower (s : String) : String :=
  ⟨s.data.map Char.toLower⟩

/-- White space as tested by Go `unicode.IsSpace` (ASCII range; the
embedded code trims file paths and host-list lines). -/
def goIsSpace (c : Char) : Bool :=
  c = ' ' || c = '\t' || c = '\n' || c = '\x0b' || c = '\x0c' || c = '\r'

/-- Embedding of Go `strings.TrimSpace`: drop white space from both
ends. -/
def goTrimSpace (s : String) : String :=
  ⟨((s.data.dropWhile goIsSpace).reverse.dropWhile goIsSpace).reverse⟩

/-- Split a character list at every newline, as Go
`strings.Split(s, "\n")` does (n newlines yield n+1 pieces). -/
def splitOnNL : List Char → List (List Char)
  | [] => [[]]
  | c :: t =>
    let r := splitOnNL t
    if c = '\n' then [] :: r
    else (c :: r.headD []) :: r.tail

/-- Embedding of Go `strings.HasSuffix`: `s` ends with `suffix`. -/
def goHasSuffix (s suffix : String) : Bool :=
  decide (suffix.data.length ≤ s.data.length) &&
  decide (s.data.drop (s.data.length - suffix.data.length) = suffix.data)

/-- Embedding of `sanitise()` (screenshot.go:804-806): the regular
expression `\W+` with empty replacement removes every character outside
`[0-9A-Za-z_]`, i.e. keeps exactly the word characters. -/
def sanitise (aURL : String) : String :=
  ⟨aURL.data.filter isWordChar⟩

/-- Length of the maximal run of word characters at the head of a list
(the greedy match of `\w+`). -/
def wordRun : List Char → Nat
  | [] => 0
  | c :: t => if isWordChar c then wordRun t + 1 else 0

/-- The tail condition `([\?\#].*)?$` of the extension regex: the rest of
the input is empty, or starts with `?` or `#` followed by characters that
`.` can match (no newline). -/
def extRestOk : List Char → Bool
  | [] => true
  | c :: t => (c == '?' || c == '#') && t.all (fun d => d ≠ '\n')

/-- Leftmost match of `(\.\w+)([\?\#].*)?$` (the regex `ssExtRE`,
screenshot.go:141), returning capture group 1.  At a candidate dot the
greedy `\w+` is forced to its maximal run: any shorter run is followed by
a word character, which satisfies neither `[\?\#]` nor `$`. -/
def fileExtAux : List Char → Option (List Char)
  | [] => none
  | c :: t =>
    if c = '.' then
      let r := wordRun t
      if 0 < r && extRestOk (t.drop r) then some ('.' :: t.take r)
      else fileExtAux t
    else fileExtAux t

/-- Embedding of `fileExt()` (screenshot.go:645-652): capture group 1 of
the leftmost match of `ssExtRE`, or `""` when there is no match. -/
def fileExt (aURL : String) : String :=
  match fileExtAux aURL.data with
  | some ext => ⟨ext⟩
  | none => ""

/-- Embedding of `containsHost()` (screenshot.go:501-513): walk the
haystack, skip empty and `#`-comment entries, and report whether the
needle ends with some remaining entry. -/
def containsHost (aNeedle : String) (aHaystack : List String) : Bool :=
  aHaystack.any fun entry =>
    match entry.data with
    | [] => false
    | c :: _ => if c = '#' then false else goHasSuffix aNeedle entry

/-- File type as seen through Go's `os.FileInfo.Mode()`. -/
inductive FileMode : Type where
  | regular
  | directory
  | irregular
deriving DecidableEq

/-- Result of `os.Stat`: mode, size in bytes, modification time (seconds). -/
structure FileInfo where
  mode : FileMode
  size : Int
  modTime : Int
deriving DecidableEq

/-- Whether the mode is a regular file (`fi.Mode().IsRegular()`). -/
def FileMode.isRegular : FileMode → Bool
  | .regular => true
  | _ => false

/-- Embedding of `exists()` (screenshot.go:601-636).  The filesystem is
the explicit parameter `fs` (the result of `os.Stat` per path) and the
clock is `now`; `imageOverwrite` and `imageAge` are the two configuration
fields the function reads.  An hour is 3600 time units. -/
def existsGo (imageOverwrite : Bool) (imageAge : Int)
    (fs : String → Option FileInfo) (now : Int) (aFilename : String) : Bool :=
  if (goTrimSpace aFilename).data = [] then false
  else
    match fs (goTrimSpace aFilename) with
    | none => false
    | some fi =>
      if !fi.mode.isRegular then true
      else if fi.size < 4096 then false
      else if imageOverwrite then false
      else if 0 < imageAge then decide (now < fi.modTime + imageAge * 3600)
      else true

/-- Embedding of `readListFile()` (screenshot.go:708-747).  The input is
the result of `os.ReadFile` (`none` on error).  The goto-driven loop
lowercases and trims every line and deletes blank and `#`-comment lines,
which is the single filter-and-map pass below. -/
def readListFile (aData : Option String) : List String :=
  match aData with
  | none => []
  | some s =>
    if s.data = [] then []
    else
      (((splitOnNL s.data).map
          (fun l => goToLower (goTrimSpace ⟨l⟩))).filter
        fun line =>
          match line.data with
          | [] => false
          | c :: _ => c ≠ '#')

/-- In-memory state of one Avoid/Need hosts list (`tAvoidNeedFile`,
screenshot.go:125-131): next reload time and the stored entry list. -/
structure HostsState where
  nextTime : Int
  list : List String
deriving DecidableEq

/-- Embedding of the reload-and-match step of `chk4()`
(screenshot.go:351-361), after the needle has been extracted from the URL.
`fileContent` is the result of reading the hosts file from disk,
`readWaitTime` is `ssReadWaitTime` in minutes (a minute is 60 time
units).  Returns the updated stored state together with the match
result. -/
def chk4Check (needle : String) (fileContent : Option String)
    (readWaitTime now : Int) (st : HostsState) : HostsState × Bool :=
  if st.list.length = 0 || decide (st.nextTime < now) then
    let st1 := if 0 < readWaitTime then { st with nextTime := now + readWaitTime * 60 } else st
    let st2 := { st1 with list := readListFile fileContent }
    if st2.list.length = 0 then (st2, false)
    else (st2, containsHost (goToLower needle) st2.list)
  else (st, containsHost (goToLower needle) st.list)

/-- Shallow model of a Go `image.Image` as produced and transformed by the
normalizer: a decoded source image, the result of `image.NewRGBA` of the
target rectangle filled by `draw.BiLinear.Scale` from a source image, or a
`SubImage` crop of a source image. -/
inductive GoImage : Type where
  | source (w h : Int) : GoImage
  | rgbaScaled (w h : Int) (src : GoImage) : GoImage
  | sub (w h : Int) (src : GoImage) : GoImage
deriving DecidableEq

/-- Width of the canonicalized rectangle `image.Rect(0, 0, a, b)`:
`image.Rect` swaps the corners when given a negative extent. -/
def rectDim (a : Int) : Int := if a < 0 then -a else a

/-- Pixel width of a modelled image.  A `SubImage` crop of an
origin-bounded image is clipped to the source bounds. -/
def GoImage.width : GoImage → Int
  | .source w _ => w
  | .rgbaScaled w _ _ => rectDim w
  | .sub w _ s => min (rectDim w) s.width

/-- Pixel height of a modelled image (see `GoImage.width`). -/
def GoImage.height : GoImage → Int
  | .source _ h => h
  | .rgbaScaled _ h _ => rectDim h
  | .sub _ h s => min (rectDim h) s.height

/-- Embedding of `cropScale()` (screenshot.go:523-587) with the
configuration fields `ssOptions.ImageWidth`/`ssOptions.ImageHeight` passed
as `W`/`H`.  Mirrors the source's flag computation and branch order; the
branch in which `doCrop` holds but neither flag does falls through to the
magnify check, exactly as the Go control flow does. -/
def cropScale (W H : Int) (aImgData : GoImage) : GoImage :=
  let xIsBigger := decide (0 < W ∧ W < aImgData.width)
  let yIsBigger := decide (0 < H ∧ H < aImgData.height)
  let doCrop := xIsBigger || yIsBigger
  let doMagnify := (!xIsBigger && decide (aImgData.width < W)) ||
                   (!yIsBigger && decide (aImgData.height < H))
  if doCrop then
    if yIsBigger then
      if xIsBigger then .rgbaScaled W H aImgData
      else .sub aImgData.width H aImgData
    else if xIsBigger then .sub W aImgData.height aImgData
    else if doMagnify then .rgbaScaled W H aImgData else aImgData
  else if doMagnify then .rgbaScaled W H aImgData
  else aImgData

/-- The decode retry loop of `cleanupOutput()` (screenshot.go:381-398):
try to decode; on failure drop the first byte; stop with `none` when the
buffer runs out.  On success it returns the decoded image together with
the suffix of the input on which decoding succeeded (the Go code has
shifted `aRawData` to exactly that suffix).  The codec (`png.Decode` or
`jpeg.Decode`) is the explicit parameter `decode`. -/
def decodeLoop (decode : List UInt8 → Option GoImage) :
    List UInt8 → Option (GoImage × List UInt8)
  | [] =>
    match decode [] with
    | some img => some (img, [])
    | none => none
  | b :: t =>
    match decode (b :: t) with
    | some img => some (img, b :: t)
    | none => if t = [] then none else decodeLoop decode t

/-- Embedding of `cleanupOutput()` (screenshot.go:371-409).  Both branches
of the source (png when quality is 100, jpeg otherwise) have the same
shape; the codec pair is abstracted as `decode`/`encode`, and
`W`/`H` are the configured target dimensions used by `cropScale`. -/
def cleanupOutput (decode : List UInt8 → Option GoImage)
    (encode : GoImage → List UInt8) (W H : Int)
    (aRawData : List UInt8) : List UInt8 :=
  if aRawData = [] then aRawData
  else
    match decodeLoop decode aRawData with
    | none => []
    | some (img, raw) =>
      let buffer := encode (cropScale W H img)
      if 4096 < buffer.length then buffer else raw

/-- The configuration record `TScreenshotParams` (screenshot.go:64-123). -/
structure TScreenshotParams where
  AcceptOther : Bool
  CertErrors : Bool
  Cookies : Bool
  HostsAvoidJSfile : String
  HostsNeedJSfile : String
  ImageAge : Int
  ImageDir : String
  ImageHeight : Int
  ImageOverwrite : Bool
  ImageQuality : Int
  ImageScale : Float
  ImageWidth : Int
  JavaScript : Bool
  MaxProcessTime : Int
  Mobile : Bool
  Platform : String
  Scrollbars : Bool
  UserAgent : String

/-- Identifier used in error messages (`ssLibName`, screenshot.go:58). -/
def ssLibName : String := "ScreenShot"

/-- The lookup `ssImageTypes[100 > ssOptions.ImageQuality]`
(screenshot.go:145-148, 1019): `jpeg` below quality 100, `png` at 100. -/
def imageTypeExt (quality : Int) : String :=
  if quality < 100 then "jpeg" else "png"

/-- Embedding of `filepath.Join` for the dir/file shapes `CreateImage`
builds (a cleaned directory joined with a relative file name). -/
def joinPath (dir file : String) : String := dir ++ "/" ++ file

/-- The excluded binary filename extensions of the `switch` in
`CreateImage()` (screenshot.go:1068-1079). -/
def excludedExts : List String :=
  [".amr", ".arj", ".avi", ".azw3",
   ".bak", ".bibtex", ".bz2",
   ".cfg", ".com", ".conf", ".csv",
   ".db", ".deb", ".doc", ".docx", ".dia",
   ".epub", ".exe", ".flv", ".gz",
   ".ics", ".iso", ".jar", ".json",
   ".md", ".mobi", ".mp3", ".mp4", ".mpeg",
   ".odf", ".odg", ".odp", ".ods", ".odt", ".otf", ".oxt",
   ".pas", ".pdf", ".ppd", ".ppt", ".pptx",
   ".rip", ".rpm", ".spk", ".sxg", ".sxw",
   ".ttf", ".vbox", ".vmdk", ".vcs", ".wav",
   ".xls", ".xpi", ".xsl", ".zip"]

/-- The raster-image extensions handled by a direct HTTP GET
(screenshot.go:1083). -/
def imageExts : List String := [".gif", ".jpeg", ".jpg", ".png", ".svg"]

/-- Which external fetch, if any, a `CreateImage` run performs. -/
inductive FetchAction : Type where
  | noFetch
  | httpGet
  | render
deriving DecidableEq

/-- External collaborators of `CreateImage`: the filesystem stat view and
clock consumed by `exists()`, and the outcomes (returned filename and
error) of the two fetch branches, which end in network and disk writes. -/
structure CreateEnv where
  fs : String → Option FileInfo
  now : Int
  getOutcome : String → String × Option String
  renderOutcome : String → String × Option String

/-- Return value of `CreateImage`: the Go `(string, error)` pair plus
which fetch branch was taken. -/
structure CreateResult where
  name : String
  err : Option String
  action : FetchAction
deriving DecidableEq

/-- The cache-hit check of `CreateImage()` (screenshot.go:1019-1043):
primary format first, then — when `AcceptOther` is set — the respective
other format.  Returns the already-cached relative filename, if any. -/
def cachedName (opts : TScreenshotParams) (env : CreateEnv)
    (sanitised ext : String) : Option String :=
  let result := sanitised ++ "." ++ ext
  if existsGo opts.ImageOverwrite opts.ImageAge env.fs env.now
      (joinPath opts.ImageDir result) then some result
  else if opts.AcceptOther then
    if ext = "jpeg" then
      let result2 := sanitised ++ ".png"
      if existsGo opts.ImageOverwrite opts.ImageAge env.fs env.now
          (joinPath opts.ImageDir result2) then some result2 else none
    else if ext = "png" then
      let result2 := sanitised ++ ".jpeg"
      if existsGo opts.ImageOverwrite opts.ImageAge env.fs env.now
          (joinPath opts.ImageDir result2) then some result2 else none
    else none
  else none

/-- Embedding of the decision structure of `CreateImage()`
(screenshot.go:1014-1117): empty-directory guard, cache short-circuit,
then the extension switch — excluded types fail with no fetch, raster
images go through a direct HTTP GET, everything else through the
renderer.  The two fetch continuations (download/render plus
`writeFile`) are external collaborators supplied by `env`. -/
def CreateImage (opts : TScreenshotParams) (env : CreateEnv)
    (aURL : String) : CreateResult :=
  if opts.ImageDir.data = [] then
    ⟨"", some (ssLibName ++ ": property 'ImageDir' is empty"), .noFetch⟩
  else
    let ext := imageTypeExt opts.ImageQuality
    let sanitised := sanitise aURL
    match cachedName opts env sanitised ext with
    | some r => ⟨r, none, .noFetch⟩
    | none =>
      let lext := goToLower (fileExt aURL)
      if lext ∈ excludedExts then
        ⟨"", some (ssLibName ++ ": excluded filename extension '" ++
          lext ++ "'"), .noFetch⟩
      else if lext ∈ imageExts then
        let r := env.getOutcome aURL
        ⟨r.1, r.2, .httpGet⟩
      else
        let r := env.renderOutcome aURL
        ⟨r.1, r.2, .render⟩

/-- Placeholder configuration used as the default of heap lookups. -/
def blankParams : TScreenshotParams :=
  ⟨false, false, false, "", "", 0, "", 0, false, 0, 0, 0, false, 0, false, "", false, ""⟩

/-- A tiny heap of configuration records: index 0 is the process-wide
`ssOptions` cell, later indices are structs handed out to callers. -/
abbrev Heap : Type := List TScreenshotParams

/-- Dereference a heap pointer. -/
def derefHeap (h : Heap) (p : Nat) : TScreenshotParams :=
  List.getD h p blankParams

/-- Store a whole record through a heap pointer (a caller mutating the
struct a pointer refers to). -/
def storeHeap (h : Heap) (p : Nat) (v : TScreenshotParams) : Heap :=
  List.set h p v

/-- Embedding of `Options()` (screenshot.go:246-267): allocate a fresh
record whose every field is copied from the global cell at index 0, and
return a pointer to the fresh cell. -/
def Options (h : Heap) : Nat × Heap :=
  let g := derefHeap h 0
  (List.length h, h ++ [{
    AcceptOther := g.AcceptOther
    CertErrors := g.CertErrors
    Cookies := g.Cookies
    HostsAvoidJSfile := g.HostsAvoidJSfile
    HostsNeedJSfile := g.HostsNeedJSfile
    ImageAge := g.ImageAge
    ImageDir := g.ImageDir
    ImageHeight := g.ImageHeight
    ImageOverwrite := g.ImageOverwrite
    ImageQuality := g.ImageQuality
    ImageScale := g.ImageScale
    ImageWidth := g.ImageWidth
    JavaScript := g.JavaScript
    MaxProcessTime := g.MaxProcessTime
    Mobile := g.Mobile
    Platform := g.Platform
    Scrollbars := g.Scrollbars
    UserAgent := g.UserAgent }])

/-- Concrete stat view for the C1 check: one freshly written regular
artifact of 5000 bytes. -/
def c1fs : String → Option FileInfo :=
  fun n => if n = "/tmp/httpsexamplecom.jpeg" then some ⟨.regular, 5000, 0⟩ else none

/-- Concrete stat view for the C7 check: `/home` is a directory. -/
def c7fs : String → Option FileInfo :=
  fun n => if n = "/home" then some ⟨.directory, 4096, 0⟩ else none

/-- Concrete options for the C2 check (the library defaults with the
image directory `/tmp`). -/
def c2opts : TScreenshotParams :=
  ⟨true, false, false, "", "", 0, "/tmp", 768, false, 75, 0, 896, false, 32,
   false, "Linux x86_64", false, ""⟩

/-- Concrete collaborators for the C2 check: an empty filesystem and
fetch branches that are never reached. -/
def c2env : CreateEnv := ⟨fun _ => none, 0, fun _ => ("", none), fun _ => ("", none)⟩

/-- Decoded toy image for the C4 boundary check. -/
def c4img : GoImage := .source 10 10

/-- Toy codec decode for the C4 boundary check: only `[1]` decodes. -/
def c4decode : List UInt8 → Option GoImage :=
  fun l => if l = [1] then some c4img else none

/-- Toy codec encode for the C4 boundary check: re-encoding always yields
a buffer of exactly 4096 bytes. -/
def c4encode : GoImage → List UInt8 := fun _ => List.replicate 4096 0

/-- Decoded toy image for the C5 garbage-prefix check. -/
def c5img : GoImage := .source 20 20

/-- Toy codec decode for the C5 garbage-prefix check: only the valid
image bytes `[7]` decode; every suffix still carrying garbage fails. -/
def c5decode : List UInt8 → Option GoImage :=
  fun l => if l = [7] then some c5img else none

/-- Toy codec encode for the C5 garbage-prefix check. -/
def c5encode : GoImage → List UInt8 := fun _ => []

/-- Concrete one-cell heap for the C10 check: only the global cell. -/
def c10heap : Heap := [{ blankParams with ImageWidth := 896, ImageDir := "/tmp" }]

/-- A mutated configuration value for the C10 check. -/
def c10v : TScreenshotParams := { blankParams with ImageWidth := 555 }

/-- Elements of `(l ++ [x])` at index `l.length`, used for the fresh
allocation of `Options`. -/
theorem getD_append_length {α : Type} (l : List α) (x d : α) :
    List.getD (l ++ [x]) l.length d = x := by
  induction l with
  | nil => rfl
  | cons a t ih => simp [ih]

/-- C9: for every URL string, `sanitise` keeps only characters from
`[A-Za-z0-9_]` (everything else is removed, not replaced), and it is
idempotent. -/
theorem sanitise_wordchars_idempotent (u : String) :
    (∀ c ∈ (sanitise u).data, isWordChar c = true) ∧
    sanitise (sanitise u) = sanitise u := by
  constructor
  · intro c hc
    exact (List.mem_filter.mp hc).2
  · show (⟨(u.data.filter isWordChar).filter isWordChar⟩ : String) =
      ⟨u.data.filter isWordChar⟩
    rw [List.filter_filter]
    simp

/-- C3: for a lowercased needle and a loaded host list whose entries are
lowercase, non-empty and not comments, `containsHost` answers true
exactly when the hostname ends, case-insensitively, with some entry. -/
theorem containsHost_iff_ci_suffix (h : String) (l : List String)
    (hvalid : ∀ e ∈ l, e.data ≠ [] ∧ e.data.head? ≠ some '#' ∧ goToLower e = e) :
    containsHost (goToLower h) l = true ↔
      ∃ e ∈ l, goHasSuffix (goToLower h) (goToLower e) = true := by
  unfold containsHost
  rw [List.any_eq_true]
  constructor
  · rintro ⟨e, he, hfe⟩
    refine ⟨e, he, ?_⟩
    obtain ⟨hne, hhead, hlow⟩ := hvalid e he
    rw [hlow]
    cases hdata : e.data with
    | nil => exact absurd hdata hne
    | cons c t =>
      rw [hdata] at hfe
      by_cases hc : c = '#'
      · simp [hc] at hfe
      · simpa [hc] using hfe
  · rintro ⟨e, he, hsuf⟩
    refine ⟨e, he, ?_⟩
    obtain ⟨hne, hhead, hlow⟩ := hvalid e he
    rw [hlow] at hsuf
    cases hdata : e.data with
    | nil => exact absurd hdata hne
    | cons c t =>
      have hc : c ≠ '#' := by
        intro hcc
        apply hhead
        rw [hdata, hcc]
        rfl
      simp [hc, hsuf]

/-- Witness for C3: entry `example.com` against needle `www.example.com`
(mixed case in the hostname). -/
theorem containsHost_iff_ci_suffix_witness :
    containsHost (goToLower "www.Example.com") ["example.com"] = true ↔
      ∃ e ∈ ["example.com"],
        goHasSuffix (goToLower "www.Example.com") (goToLower e) = true :=
  containsHost_iff_ci_suffix "www.Example.com" ["example.com"] (by decide)


/-- Counterexample to C1: with max-age `0` (the default) and a freshly
written 5000-byte regular artifact, the existence check answers `true`,
not the claimed immediate `false`. -/
theorem exists_age_zero_not_false :
    existsGo false 0 c1fs 0 "/tmp/httpsexamplecom.jpeg" = true := by decide

/-- C1 (amended): when the configured max cache age is zero, `exists`
skips the age comparison: for an existing regular file of at least 4096
bytes with overwriting disabled it returns `true` at every clock value,
so the cache is trusted regardless of age and `CreateImage` does not
re-fetch. -/
theorem exists_age_zero_trusts_cache
    (fs : String → Option FileInfo) (now : Int) (name : String) (fi : FileInfo)
    (hne : (goTrimSpace name).data ≠ [])
    (hstat : fs (goTrimSpace name) = some fi)
    (hreg : fi.mode = .regular)
    (hsize : 4096 ≤ fi.size) :
    existsGo false 0 fs now name = true := by
  have hns : ¬fi.size < 4096 := not_lt.mpr hsize
  unfold existsGo
  rw [if_neg hne, hstat]
  simp [hreg, FileMode.isRegular, hns]

/-- Witness for C1 (amended): the artifact of `c1fs`, checked at a very
late clock value. -/
theorem exists_age_zero_trusts_cache_witness :
    existsGo false 0 c1fs 99999999 "/tmp/httpsexamplecom.jpeg" = true :=
  exists_age_zero_trusts_cache c1fs 99999999 "/tmp/httpsexamplecom.jpeg"
    ⟨.regular, 5000, 0⟩ (by decide) (by decide) rfl (by decide)

/-- Counterexample to C7: for a path naming a directory the existence
check answers `true` (the irregular file is left alone), not the claimed
`false`. -/
theorem exists_directory_true_cex :
    existsGo false 0 c7fs 0 "/home" = true := by decide

/-- C7 (amended): `exists` returns `false` when the path does not exist
on disk, but returns `true` when the path names a directory (any
non-regular file is treated as present and left alone). -/
theorem exists_missing_false_directory_true
    (imageOverwrite : Bool) (imageAge : Int) (fs : String → Option FileInfo)
    (now : Int) (name : String) :
    (fs (goTrimSpace name) = none →
      existsGo imageOverwrite imageAge fs now name = false) ∧
    (∀ fi, fs (goTrimSpace name) = some fi → fi.mode = .directory →
      (goTrimSpace name).data ≠ [] →
      existsGo imageOverwrite imageAge fs now name = true) := by
  constructor
  · intro hstat
    by_cases hne : (goTrimSpace name).data = []
    · unfold existsGo
      rw [if_pos hne]
    · unfold existsGo
      rw [if_neg hne, hstat]
  · intro fi hstat hdir hne
    unfold existsGo
    rw [if_neg hne, hstat]
    simp [hdir, FileMode.isRegular]

/-- Witness for C7 (amended): a missing path and the directory `/home`. -/
theorem exists_missing_false_directory_true_witness :
    existsGo false 0 c7fs 0 "/nope" = false ∧
    existsGo false 0 c7fs 0 "/home" = true :=
  ⟨(exists_missing_false_directory_true false 0 c7fs 0 "/nope").1 (by decide),
   (exists_missing_false_directory_true false 0 c7fs 0 "/home").2
     ⟨.directory, 4096, 0⟩ (by decide) rfl (by decide)⟩

/-- C2: when the image directory is configured, no cached file satisfies
the request, and the URL's lowercased filename extension is in the
excluded set, `CreateImage` fails at once with the error naming that
extension, returns the empty filename, and performs no fetch. -/
theorem createImage_excluded_ext (opts : TScreenshotParams) (env : CreateEnv)
    (aURL : String)
    (hdir : opts.ImageDir.data ≠ [])
    (hmiss : cachedName opts env (sanitise aURL) (imageTypeExt opts.ImageQuality) = none)
    (hex : goToLower (fileExt aURL) ∈ excludedExts) :
    CreateImage opts env aURL =
      ⟨"", some (ssLibName ++ ": excluded filename extension '" ++
        goToLower (fileExt aURL) ++ "'"), .noFetch⟩ := by
  simp only [CreateImage]
  rw [if_neg hdir]
  simp only [hmiss]
  rw [if_pos hex]

/-- Witness for C2: `https://example.com/report.pdf` against an empty
filesystem and the default options. -/
theorem createImage_excluded_ext_witness :
    CreateImage c2opts c2env "https://example.com/report.pdf" =
      ⟨"", some (ssLibName ++ ": excluded filename extension '" ++
        goToLower (fileExt "https://example.com/report.pdf") ++ "'"), .noFetch⟩ :=
  createImage_excluded_ext c2opts c2env "https://example.com/report.pdf"
    (by decide) (by decide) (by decide)

/-- The decode retry loop succeeds immediately on input the codec
decodes, returning that input unchanged as the remainder. -/
theorem decodeLoop_eq_of_decode (decode : List UInt8 → Option GoImage)
    (raw : List UInt8) (img : GoImage) (h : decode raw = some img) :
    decodeLoop decode raw = some (img, raw) := by
  cases raw with
  | nil => simp [decodeLoop, h]
  | cons b t => simp [decodeLoop, h]

/-- Counterexample to C4: with a re-encoded buffer of exactly 4096 bytes
(not smaller than the threshold, and different from the raw input) the
normalizer still returns the raw input, where the claim demands the
re-encoded buffer. -/
theorem cleanupOutput_at_4096_returns_raw :
    cleanupOutput c4decode c4encode 896 768 [1] = [1] ∧
    (c4encode (cropScale 896 768 c4img)).length = 4096 ∧
    [1] ≠ c4encode (cropScale 896 768 c4img) := by
  have hlen : (c4encode (cropScale 896 768 c4img)).length = 4096 :=
    List.length_replicate 4096 0
  have hd : decodeLoop c4decode [1] = some (c4img, [1]) := by
    simp [decodeLoop, c4decode]
  refine ⟨?_, hlen, ?_⟩
  · unfold cleanupOutput
    rw [if_neg (by simp : ¬([1] : List UInt8) = []), hd]
    simp only [hlen]
    norm_num
  · intro heq
    have h2 := congrArg List.length heq
    rw [hlen] at h2
    simp at h2

/-- C4 (amended): when the input is non-empty and decodes directly, the
normalizer returns the re-encoded buffer exactly when that buffer is
strictly larger than 4096 bytes, and the original raw input when the
buffer's size is at most 4096 bytes. -/
theorem cleanupOutput_threshold (decode : List UInt8 → Option GoImage)
    (encode : GoImage → List UInt8) (W H : Int) (raw : List UInt8)
    (img : GoImage) (hne : raw ≠ []) (hdec : decode raw = some img) :
    cleanupOutput decode encode W H raw =
      if 4096 < (encode (cropScale W H img)).length
      then encode (cropScale W H img) else raw := by
  unfold cleanupOutput
  rw [if_neg hne, decodeLoop_eq_of_decode decode raw img hdec]

/-- Witness for C4 (amended): the toy codec of the counterexample, whose
4096-byte buffer is on the `at most` side of the threshold. -/
theorem cleanupOutput_threshold_witness :
    cleanupOutput c4decode c4encode 896 768 [1] =
      (if 4096 < (c4encode (cropScale 896 768 c4img)).length
       then c4encode (cropScale 896 768 c4img) else [1]) :=
  cleanupOutput_threshold c4decode c4encode 896 768 [1] c4img
    (by decide) (by decide)

/-- The decode retry loop consumes a wholly undecodable garbage prefix
and succeeds on the valid remainder. -/
theorem decodeLoop_garbage (decode : List UInt8 → Option GoImage)
    (g valid : List UInt8) (img : GoImage)
    (hvalid : decode valid = some img) (hne : valid ≠ [])
    (hfail : ∀ k, k < g.length → decode ((g ++ valid).drop k) = none) :
    decodeLoop decode (g ++ valid) = some (img, valid) := by
  induction g with
  | nil =>
    rw [List.nil_append]
    exact decodeLoop_eq_of_decode decode valid img hvalid
  | cons b g' ih =>
    have h0 : decode (b :: (g' ++ valid)) = none := by
      have h00 := hfail 0 (by simp)
      simpa using h00
    have ht : g' ++ valid ≠ [] := by simp [hne]
    have hstep : decodeLoop decode ((b :: g') ++ valid) =
        decodeLoop decode (g' ++ valid) := by
      rw [List.cons_append]
      simp [decodeLoop, h0, ht]
    rw [hstep]
    exact ih (fun k hk => by
      have hk1 := hfail (k + 1) (by simpa using Nat.succ_lt_succ hk)
      simpa using hk1)

/-- C5: prefixing a valid image with undecodable garbage bytes does not
change the normalizer's result: the decode loop drops one leading byte
per failure until the valid image decodes. -/
theorem cleanupOutput_garbage_prefix (decode : List UInt8 → Option GoImage)
    (encode : GoImage → List UInt8) (W H : Int) (g valid : List UInt8)
    (img : GoImage) (hvalid : decode valid = some img) (hne : valid ≠ [])
    (hfail : ∀ k, k < g.length → decode ((g ++ valid).drop k) = none) :
    cleanupOutput decode encode W H (g ++ valid) =
      cleanupOutput decode encode W H valid := by
  have h1 : decodeLoop decode (g ++ valid) = some (img, valid) :=
    decodeLoop_garbage decode g valid img hvalid hne hfail
  have h2 : decodeLoop decode valid = some (img, valid) :=
    decodeLoop_eq_of_decode decode valid img hvalid
  have hga : g ++ valid ≠ [] := by simp [hne]
  simp [cleanupOutput, h1, h2, hga, hne]

/-- Witness for C5: two garbage bytes in front of the one-byte valid
image of the toy codec. -/
theorem cleanupOutput_garbage_prefix_witness :
    cleanupOutput c5decode c5encode 896 768 ([1, 2] ++ [7]) =
      cleanupOutput c5decode c5encode 896 768 [7] :=
  cleanupOutput_garbage_prefix c5decode c5encode 896 768 [1, 2] [7] c5img
    (by decide) (by decide) (by decide)

/-- C6: when both decoded dimensions strictly exceed the configured
positive targets, `cropScale` returns the bilinear rescale into the full
target box — exactly `W`-by-`H` pixels, not a proportional shrink. -/
theorem cropScale_both_exceed (W H : Int) (img : GoImage)
    (hW : 0 < W) (hH : 0 < H) (hx : W < img.width) (hy : H < img.height) :
    cropScale W H img = .rgbaScaled W H img ∧
    (cropScale W H img).width = W ∧ (cropScale W H img).height = H := by
  have ex : decide (0 < W ∧ W < img.width) = true := by simp [hW, hx]
  have ey : decide (0 < H ∧ H < img.height) = true := by simp [hH, hy]
  have hcs : cropScale W H img = .rgbaScaled W H img := by
    unfold cropScale
    simp [ex, ey]
  refine ⟨hcs, ?_, ?_⟩
  · rw [hcs]
    show rectDim W = W
    unfold rectDim
    rw [if_neg (by omega)]
  · rw [hcs]
    show rectDim H = H
    unfold rectDim
    rw [if_neg (by omega)]

/-- Witness for C6: a 2000-by-2000 image against the 896-by-768 target. -/
theorem cropScale_both_exceed_witness :
    cropScale 896 768 (.source 2000 2000) =
      .rgbaScaled 896 768 (.source 2000 2000) ∧
    (cropScale 896 768 (GoImage.source 2000 2000)).width = 896 ∧
    (cropScale 896 768 (GoImage.source 2000 2000)).height = 768 :=
  cropScale_both_exceed 896 768 (.source 2000 2000)
    (by decide) (by decide) (by decide) (by decide)

/-- Counterexample to C8: a reload triggered with a nonempty stored list
whose file read fails (empty result) leaves the stored list empty — the
previous list entry `example.com` is not kept. -/
theorem chk4_empty_reload_cex :
    readListFile none = [] ∧
    (chk4Check "example.com" none 1 10 ⟨0, ["example.com"]⟩).1.list ≠
      ["example.com"] := by decide

/-- C8 (amended): when a triggered reload yields an empty list, the
stored list is replaced by that empty result (the previous entries are
discarded) and the query returns `false`. -/
theorem chk4_empty_reload_clears_list (needle : String)
    (fileContent : Option String) (readWaitTime now : Int) (st : HostsState)
    (htrig : st.list.length = 0 ∨ st.nextTime < now)
    (hempty : readListFile fileContent = []) :
    (chk4Check needle fileContent readWaitTime now st).1.list = [] ∧
    (chk4Check needle fileContent readWaitTime now st).2 = false := by
  rcases htrig with h | h
  · have hl : st.list = [] := List.length_eq_zero.mp h
    simp [chk4Check, hl, hempty]
  · simp [chk4Check, h, hempty]

/-- Witness for C8 (amended): a comments-only hosts file read during a
due reload. -/
theorem chk4_empty_reload_clears_list_witness :
    (chk4Check "twitter.com" (some "# only comments\n\n") 1 5
      ⟨3, ["facebook.com"]⟩).1.list = [] ∧
    (chk4Check "twitter.com" (some "# only comments\n\n") 1 5
      ⟨3, ["facebook.com"]⟩).2 = false :=
  chk4_empty_reload_clears_list "twitter.com" (some "# only comments\n\n") 1 5
    ⟨3, ["facebook.com"]⟩ (Or.inr (by decide)) (by decide)

/-- C10: `Options` hands out a pointer to a freshly allocated cell, not
the global cell: the fresh cell's value equals the global configuration
at call time, and storing through the returned pointer leaves the global
cell unchanged. -/
theorem options_returns_fresh_copy (h : Heap) (v : TScreenshotParams)
    (hne : h ≠ []) :
    (Options h).1 ≠ 0 ∧
    derefHeap (Options h).2 (Options h).1 = derefHeap h 0 ∧
    derefHeap (storeHeap (Options h).2 (Options h).1 v) 0 = derefHeap h 0 := by
  obtain ⟨a, t, rfl⟩ : ∃ a t, h = a :: t := by
    cases h with
    | nil => exact absurd rfl hne
    | cons a t => exact ⟨a, t, rfl⟩
  refine ⟨by simp [Options], ?_, ?_⟩
  · show List.getD ((a :: t) ++ [a]) (t.length + 1) blankParams = a
    rw [List.cons_append]
    exact getD_append_length t a blankParams
  · rfl

/-- Witness for C10: a one-cell heap holding the global configuration,
mutated through the returned pointer. -/
theorem options_returns_fresh_copy_witness :
    (Options c10heap).1 ≠ 0 ∧
    derefHeap (Options c10heap).2 (Options c10heap).1 = derefHeap c10heap 0 ∧
    derefHeap (storeHeap (Options c10heap).2 (Options c10heap).1 c10v) 0 =
      derefHeap c10heap 0 :=
  options_returns_fresh_copy c10heap c10v (by simp [c10heap])
